import Mathlib

/-!
Verification of the timeline core of `gantt_chart_generator.py`.

Shallow embedding conventions:
* A `datetime` restricted to calendar-date granularity is an `Int` counting
  days since 1970-01-01; `timedelta(days = n)` is `+ n`.  All dates the
  generator handles come from OpenProject `startDate`/`dueDate` fields, which
  are calendar dates.
* Dynamically typed JSON values reaching the generator are `PyVal`
  (null / number / string / object); exceptions that can escape a helper are
  modelled with `Except PyErr`.
* The plotly/HTML rendering is out of scope; `generate_gantt_chart` returns
  the abstract outcome (`GanttResult`): the two "empty" alert branches, the
  chart rows of `df_plot` in display order, or the catch-all error branch of
  lines 243-247.
-/

namespace OPGantt

/-- The two Python exception classes that can escape the per-item helpers for
JSON-shaped input: `TypeError` (e.g. `str / float`, `len` of a non-string,
hashing a dict) and `AttributeError` (`.get`/`.replace` on a non-dict /
non-string).  `ValueError` from date parsing is always caught locally. -/
inductive PyErr where
  | typeError
  | attributeError
deriving DecidableEq, Repr

/-- A JSON-shaped dynamic Python value as delivered by the OpenProject API:
`None`, a number, a string, or a nested object (dict with string keys). -/
inductive PyVal where
  | pnull
  | pnum (q : ℚ)
  | pstr (s : String)
  | pobj (fields : List (String × PyVal))

/-- Python truthiness of the modelled values: `None`, `0`, `''` and `{}` are
falsy, everything else truthy. -/
def PyVal.truthy : PyVal → Bool
  | .pnull => false
  | .pnum q => q != 0
  | .pstr s => s != ""
  | .pobj fs => !fs.isEmpty

/-- Gregorian leap year. -/
def isLeap (y : Int) : Bool := y % 4 == 0 && (y % 100 != 0 || y % 400 == 0)

def daysInMonth (y m : Int) : Int :=
  if m = 2 then (if isLeap y then 29 else 28)
  else if m = 4 ∨ m = 6 ∨ m = 9 ∨ m = 11 then 30
  else 31

/-- Days since 1970-01-01 of a civil date (Hinnant's days-from-civil
algorithm, as used by every proleptic-Gregorian date library). -/
def daysFromCivil (y m d : Int) : Int :=
  let y2 := if m ≤ 2 then y - 1 else y
  let era := y2.fdiv 400
  let yoe := y2 - era * 400
  let mp := (m + 9) % 12
  let doy := (153 * mp + 2).fdiv 5 + d - 1
  let doe := yoe * 365 + yoe.fdiv 4 - yoe.fdiv 100 + doy
  era * 146097 + doe - 719468

def digitVal (c : Char) : Option Int :=
  if c.isDigit then some ((c.toNat : Int) - 48) else none

/-- Models `datetime.fromisoformat` restricted to the calendar-date form
`YYYY-MM-DD` — the only form OpenProject date fields carry.  Any other string
is treated as unparseable (`ValueError`, i.e. `none`).  Validity checks
(month 1-12, day within month, year ≥ 1) mirror `fromisoformat`'s. -/
def fromisoformat (s : String) : Option Int :=
  match s.toList with
  | [y1, y2, y3, y4, sep1, m1, m2, sep2, d1, d2] =>
    if sep1 = '-' ∧ sep2 = '-' then
      match digitVal y1, digitVal y2, digitVal y3, digitVal y4,
            digitVal m1, digitVal m2, digitVal d1, digitVal d2 with
      | some a, some b, some c, some d, some e, some f, some g, some h =>
        let y := 1000 * a + 100 * b + 10 * c + d
        let m := 10 * e + f
        let dd := 10 * g + h
        if 1 ≤ y ∧ 1 ≤ m ∧ m ≤ 12 ∧ 1 ≤ dd ∧ dd ≤ daysInMonth y m then
          some (daysFromCivil y m dd)
        else none
      | _, _, _, _, _, _, _, _ => none
    else none
  | _ => none

/-- `date_str.replace('Z', '+00:00')` (line 15): every occurrence of the
single character `'Z'` replaced, left to right. -/
def pyReplaceZ (s : String) : String :=
  String.mk ((s.toList.map
    (fun c => if c = 'Z' then "+00:00".toList else [c])).flatten)

/-- `GanttChartGenerator._parse_date` (lines 11-17).  A falsy argument returns
`None`; `.replace` on a non-string raises `AttributeError` and an unparseable
string raises `ValueError`, both caught by the `except` clause.  The function
is total: it never lets an exception escape for JSON-shaped values. -/
def _parse_date (v : PyVal) : Option Int :=
  if v.truthy then
    match v with
    | .pstr s => fromisoformat (pyReplaceZ s)
    | _ => none
  else none

def doneColor : String := "#27ae60"
def futureColor : String := "#9b59b6"
def onTrackColor : String := "#3498db"
def overdueColor : String := "#e74c3c"
def unknownColor : String := "#95a5a6"

/-- Membership in the default `closed_statuses` set literal
`{'Closed', 'closed', 'CLOSED'}` (line 21).  Note: three exact spellings,
not an arbitrary case-insensitive match. -/
def isClosedStatus : PyVal → Bool
  | .pstr s => s == "Closed" || s == "closed" || s == "CLOSED"
  | _ => false

/-- Line 24: `start and now and start > now` (`now` is a `datetime`, which is
always truthy). -/
def futureCond (start : Option Int) (now : Int) : Bool :=
  match start with
  | some s => decide (now < s)
  | none => false

/-- Line 26: `start and finish and now and start <= now <= finish`. -/
def onTrackCond (start finish : Option Int) (now : Int) : Bool :=
  match start, finish with
  | some s, some f => decide (s ≤ now ∧ now ≤ f)
  | _, _ => false

/-- Line 28: `finish and now and finish < now`. -/
def overdueCond (finish : Option Int) (now : Int) : Bool :=
  match finish with
  | some f => decide (f < now)
  | none => false

/-- `_get_status_color` (lines 19-30).  The set-membership test hashes
`status`, so an unhashable value (a dict) raises `TypeError`; every hashable
value just fails the membership tests and falls through the date checks. -/
def _get_status_color (status : PyVal) (start finish : Option Int) (now : Int) :
    Except PyErr String :=
  match status with
  | .pobj _ => .error .typeError
  | _ =>
    .ok (if isClosedStatus status then doneColor
      else if futureCond start now then futureColor
      else if onTrackCond start finish now then onTrackColor
      else if overdueCond finish now then overdueColor
      else unknownColor)

/-- Python `str.split()` with no argument: split on whitespace runs and drop
empty pieces.  `acc` holds the reversed characters of the word being built. -/
def pySplitAux : List Char → List Char → List String
  | [], acc => if acc.isEmpty then [] else [String.mk acc.reverse]
  | c :: cs, acc =>
    if c.isWhitespace then
      if acc.isEmpty then pySplitAux cs []
      else String.mk acc.reverse :: pySplitAux cs []
    else pySplitAux cs (c :: acc)

def pySplit (s : String) : List String := pySplitAux s.toList []

def sumLens (l : List String) : Nat := (l.map String.length).sum

/-- The word-packing loop of `wrap_name` (lines 41-50).  Returns the packed
lines, the final `current_line`, and the words left unprocessed when the
`break` fires (`[]` if the loop ran to completion). -/
def wrapLoop (max_chars max_lines : Nat) :
    List String → List String → String → List String × String × List String
  | [], lines, cur => (lines, cur, [])
  | w :: ws, lines, cur =>
    if cur.length + w.length + 1 ≤ max_chars then
      wrapLoop max_chars max_lines ws lines (if cur = "" then w else cur ++ " " ++ w)
    else
      if (lines ++ [cur]).length = max_lines - 1 then (lines ++ [cur], w, ws)
      else wrapLoop max_chars max_lines ws (lines ++ [cur]) w

/-- `wrap_name` (lines 35-58), the label formatter. -/
def wrap_name (name : String) (max_chars : Nat := 100) (max_lines : Nat := 2) :
    String :=
  if name.length ≤ max_chars then name
  else
    let packed := wrapLoop max_chars max_lines (pySplit name) [] ""
    let lines0 := packed.1
    let cur := packed.2.1
    let lines1 := if cur = "" then lines0 else lines0 ++ [cur]
    let lines2 := if lines1.length > max_lines then lines1.take max_lines else lines1
    let result := String.intercalate "<br>" lines2
    if lines2.length = max_lines ∧
        cur.length + sumLens lines2.dropLast < name.length then
      result ++ "..."
    else result

/-- Whether whitespace-delimited words remained unpacked when `wrap_name`'s
loop stopped — the spec's notion of "truncation occurred". -/
def wrapTruncated (name : String) (max_chars : Nat := 100)
    (max_lines : Nat := 2) : Bool :=
  if name.length ≤ max_chars then false
  else !(wrapLoop max_chars max_lines (pySplit name) [] "").2.2.isEmpty

/-- `wp.get(a) or wp.get(b)` (lines 64-65): Python `or` returns its second
operand whenever the first is falsy.  `none` models an absent key
(`dict.get` default `None`). -/
def pick (a b : Option PyVal) : PyVal :=
  let v := a.getD .pnull
  if v.truthy then v else b.getD .pnull

/-- Lines 66-69: backfill a missing date from the present one with a one-day
span; when both (or neither) are present, pass through unchanged. -/
def resolve (start finish : Option Int) : Option Int × Option Int :=
  if start.isSome && !finish.isSome then (start, start.map (· + 1))
  else if finish.isSome && !start.isSome then (finish.map (· - 1), finish)
  else (start, finish)

/-- `v.get(k, dflt)`: `AttributeError` when `v` is not a dict; note a key
present with value `None` returns `None`, not the default. -/
def pyGetD (v : PyVal) (k : String) (dflt : PyVal) : Except PyErr PyVal :=
  match v with
  | .pobj fs => .ok ((fs.lookup k).getD dflt)
  | _ => .error .attributeError

/-- `wp.get('_links', {}).get(member, {}).get('title', dflt)`
(lines 70, 72, 73). -/
def titleOf (links : Option PyVal) (member : String) (dflt : String) :
    Except PyErr PyVal := do
  let m ← pyGetD (links.getD (.pobj [])) member (.pobj [])
  pyGetD m "title" (.pstr dflt)

/-- Line 71: `wp.get('percentageDone', 0) / 100.0 if wp.get('percentageDone')
is not None else 0`.  A present non-numeric value raises `TypeError` at the
division. -/
def progressOf (pd : Option PyVal) : Except PyErr ℚ :=
  match pd.getD .pnull with
  | .pnull => .ok 0
  | .pnum q => .ok (q / 100)
  | _ => .error .typeError

/-- Line 86: `(due_date - start_date).days if start_date and due_date else 0`.
No clamping at zero. -/
def durationOf (start finish : Option Int) : Int :=
  match start, finish with
  | some s, some f => f - s
  | _, _ => 0

/-- `str(v)` as used in the f-string label; only the `None` / number / string
cases are ever exercised by the claims. -/
def pyStr : PyVal → String
  | .pnull => "None"
  | .pnum q => toString q
  | .pstr s => s
  | .pobj _ => "\x7b...\x7d"

/-- Line 62-63: `wp.get('subject', 'Untitled')` then `wrap_name(subject)` —
`len()` inside `wrap_name` raises `TypeError` when the present subject is not
a string (including an explicit JSON `null`). -/
def wrapSubject (os : Option PyVal) : Except PyErr String :=
  match os.getD (.pstr "Untitled") with
  | .pstr s => Except.ok (wrap_name s)
  | _ => Except.error PyErr.typeError

/-- One raw work package as the generator reads it.  Each field is `none` when
the key is absent; `some .pnull` is a key present with JSON `null`. -/
structure RawItem where
  id : Option PyVal := none
  subject : Option PyVal := none
  startDate : Option PyVal := none
  derivedStartDate : Option PyVal := none
  dueDate : Option PyVal := none
  derivedDueDate : Option PyVal := none
  percentageDone : Option PyVal := none
  links : Option PyVal := none

/-- One row of the normalized DataFrame built at lines 76-88. -/
structure Task where
  id : PyVal
  label : String
  start : Option Int
  finish : Option Int
  status : PyVal
  progress : ℚ
  assignee : PyVal
  wtype : PyVal
  color : String
  duration : Int
  missingStart : Bool

/-- The body of the per-item loop of `_extract_work_package_data`
(lines 60-88).  Fallible operations are sequenced in source order, so the
first exception aborts the whole extraction exactly as in Python.  Note that
`missing_start` (line 75) reads `start_date` after the backfill of
lines 66-69, so it is `true` only when no date at all could be resolved. -/
def extractOne (now : Int) (wp : RawItem) : Except PyErr Task := do
  let wpId := wp.id.getD .pnull
  let wrapped ← wrapSubject wp.subject
  let dates := resolve (_parse_date (pick wp.startDate wp.derivedStartDate))
    (_parse_date (pick wp.dueDate wp.derivedDueDate))
  let startD := dates.1
  let dueD := dates.2
  let status ← titleOf wp.links "status" "Unknown"
  let progress ← progressOf wp.percentageDone
  let assignee ← titleOf wp.links "assignee" "Unassigned"
  let wtype ← titleOf wp.links "type" "Task"
  let color ← _get_status_color status startD dueD now
  return {
    id := wpId
    label := "#" ++ pyStr wpId ++ ": " ++ wrapped
    start := startD
    finish := dueD
    status := status
    progress := progress
    assignee := assignee
    wtype := wtype
    color := color
    duration := durationOf startD dueD
    missingStart := startD.isNone }

/-- `_extract_work_package_data` (lines 32-89) over the whole item list. -/
def _extract_work_package_data (now : Int) (work_packages : List RawItem) :
    Except PyErr (List Task) :=
  work_packages.mapM (extractOne now)

/-- `str.lower()`, character by character. -/
def pyLower (s : String) : String := String.mk (s.toList.map Char.toLower)

/-- Line 109's element-wise comparison `df['Type'].str.lower() == 'epic'`
for a column that passed the `.str` accessor validation (`strAccessorOk`
below): `.str.lower()` of a non-string element is `NaN`, which never equals
`'epic'`. -/
def isEpic (t : Task) : Bool :=
  match t.wtype with
  | .pstr s => pyLower s == "epic"
  | _ => false

def isStrVal : PyVal → Bool
  | .pstr _ => true
  | _ => false

def isNumVal : PyVal → Bool
  | .pnum _ => true
  | _ => false

/-- A JSON number is a Python `int` when integral, a `float` otherwise (the
JSON text `7.0`, a float of integral value, is identified with the int `7`
by this model; the distinction only affects columns mixing integral-valued
and fractional-valued numbers). -/
def isIntVal : PyVal → Bool
  | .pnum q => q.den == 1
  | _ => false

def isFloatVal : PyVal → Bool
  | .pnum q => q.den != 1
  | _ => false

def notNull : PyVal → Bool
  | .pnull => false
  | _ => true

/-- The dtype validation pandas performs when `.str` is accessed on the
`Type` column (line 109): `infer_dtype` over the non-null values must land
in the allowed set {string, empty, bytes, mixed, mixed-integer-float};
a column inferred as integer, floating or mixed-integer raises
`AttributeError` ("Can only use .str accessor with string values!").
Over this model's value universe: no non-null values ("empty") or all
strings ("string") pass; strings mixed with an int ("mixed-integer") raise,
strings mixed with floats/dicts ("mixed") pass; an all-numeric column
raises ("integer"/"floating") unless it mixes ints and floats
("mixed-integer-float"); dicts alongside an int raise ("mixed-integer"),
otherwise dict mixtures are "mixed" and pass. -/
def strAccessorOk (types : List PyVal) : Bool :=
  if (types.filter notNull).isEmpty then true
  else if (types.filter notNull).all isStrVal then true
  else if (types.filter notNull).any isStrVal then
    !((types.filter notNull).any isIntVal)
  else if (types.filter notNull).all isNumVal then
    (types.filter notNull).any isIntVal &&
      (types.filter notNull).any isFloatVal
  else !((types.filter notNull).any isIntVal)

/-- Line 109 under `epic_only`: constructing `df['Type'].str` validates the
column first (possibly raising `AttributeError`, caught only by line 243's
catch-all), then the element-wise lowered comparison filters the rows. -/
def epicFilter (df : List Task) (epic_only : Bool) : Except PyErr (List Task) :=
  if epic_only then
    if strAccessorOk (df.map Task.wtype) then .ok (df.filter isEpic)
    else .error .attributeError
  else .ok df

def taskRank (t : Task) : Nat := if t.missingStart then 1 else 0
def startRank (t : Task) : Nat := if t.start.isSome then 0 else 1
def startVal (t : Task) : Int := t.start.getD 0

/-- The ordering realised by line 116,
`df.sort_values(['MissingStart', 'Start'], ascending=[True, True])`: pandas
multi-key sorting is `np.lexsort`, a stable sort by (MissingStart, Start)
with `NaT` last.  A stable sort by that key is exactly the sort by the total
lexicographic key (MissingStart, Start-is-NaT, Start, original position), the
relation below on position-tagged tasks. -/
def idxLe (a b : Nat × Task) : Prop :=
  taskRank a.2 < taskRank b.2 ∨ (taskRank a.2 = taskRank b.2 ∧
    (startRank a.2 < startRank b.2 ∨ (startRank a.2 = startRank b.2 ∧
      (startVal a.2 < startVal b.2 ∨ (startVal a.2 = startVal b.2 ∧
        a.1 ≤ b.1)))))

instance : DecidableRel idxLe := fun a b => by unfold idxLe; infer_instance

def sortTagged (l : List Task) : List (Nat × Task) :=
  l.enum.insertionSort idxLe

def sortTasks (l : List Task) : List Task := (sortTagged l).map Prod.snd

/-- `week_or_none` on a non-null date (lines 125-129):
`w = (date - min_start).days // 7 + 1`, clamped below at 1. -/
def week (minStart d : Int) : Int :=
  let w := (d - minStart).fdiv 7 + 1
  if 1 ≤ w then w else 1

structure TRow where
  task : Task
  startWeek : Int
  finishWeek : Int

/-- Lines 130-132 and the `df_plot` filter of line 137, per row: the week
columns (`None` for a `NaT` date), the same-week bump
(`df.loc[FinishWeek == StartWeek, 'FinishWeek'] = StartWeek + 1`; the mask is
false on NaN), then keep only rows with both weeks present. -/
def rowOf (minStart : Int) (t : Task) : Option TRow :=
  match t.start.map (week minStart), t.finish.map (week minStart) with
  | some sw, some fw => some ⟨t, sw, if fw = sw then sw + 1 else fw⟩
  | _, _ => none

def scheduledRows (minStart : Int) (tasks : List Task) : List TRow :=
  tasks.filterMap (rowOf minStart)

/-- The abstract outcome of `generate_gantt_chart`: the "no work packages"
alert (line 102), the "no scheduled tasks" alerts (lines 113 and 140, same
user-facing outcome), the chart built from `df_plot` in its sorted order, or
the catch-all error alert of lines 243-247. -/
inductive GanttResult where
  | noWorkPackages
  | noScheduled
  | chart (rows : List TRow)
  | failure (e : PyErr)

/-- `generate_gantt_chart` (lines 91-247) with the item list already fetched
and the clock injected.  Any exception escaping the core becomes the
`failure` branch via the catch-all `except` of line 243. -/
def generate_gantt_chart (now : Int) (work_packages : List RawItem)
    (epic_only : Bool) : GanttResult :=
  if work_packages.isEmpty then .noWorkPackages
  else
    match _extract_work_package_data now work_packages with
    | .error e => .failure e
    | .ok df =>
      match epicFilter df epic_only with
      | .error e => .failure e
      | .ok df1 =>
        if df1.isEmpty then .noScheduled
        else
          let sorted := sortTasks df1
          match (sorted.filterMap Task.start).min? with
          | none => .noScheduled
          | some minStart =>
            let rows := scheduledRows minStart sorted
            if rows.isEmpty then .noScheduled else .chart rows

/-- The plotted rows of an outcome (empty unless a chart was produced). -/
def rowsOf : GanttResult → List TRow
  | .chart rows => rows
  | _ => []

/-! ### Concrete inputs used by the scenario checks and counterexamples -/

/-- The spec's §8 scenario item:
`{id: 1, title: "Task A", startDate: "2024-01-01", dueDate: "2024-01-10",
status: "Open"}`. -/
def itemA : RawItem :=
  { id := some (.pnum 1)
    subject := some (.pstr "Task A")
    startDate := some (.pstr "2024-01-01")
    dueDate := some (.pstr "2024-01-10")
    links := some (.pobj [("status", .pobj [("title", .pstr "Open")])]) }

/-- A one-day item anchoring the project at 2024-01-01. -/
def itemX : RawItem :=
  { id := some (.pnum 1)
    subject := some (.pstr "X")
    startDate := some (.pstr "2024-01-01")
    dueDate := some (.pstr "2024-01-02") }

/-- An item whose explicitly provided finish (2024-01-05) precedes its start
(2024-03-01) by several weeks. -/
def itemY : RawItem :=
  { id := some (.pnum 2)
    subject := some (.pstr "Y")
    startDate := some (.pstr "2024-03-01")
    dueDate := some (.pstr "2024-01-05") }

/-- Task A of the sorting scenario: explicit start, earlier. -/
def itemEarly : RawItem :=
  { id := some (.pnum 1)
    subject := some (.pstr "A")
    startDate := some (.pstr "2024-01-01")
    dueDate := some (.pstr "2024-01-05") }

/-- Task B of the sorting scenario: explicit start, later. -/
def itemLate : RawItem :=
  { id := some (.pnum 2)
    subject := some (.pstr "B")
    startDate := some (.pstr "2024-02-01")
    dueDate := some (.pstr "2024-02-05") }

/-- Task C variant: no explicit start but a due date, so lines 68-69 infer
`start = due - 1 day` (2024-01-01) before `missing_start` is computed. -/
def itemDueOnly : RawItem :=
  { id := some (.pnum 3)
    subject := some (.pstr "C")
    dueDate := some (.pstr "2024-01-02") }

/-- Task C variant: no dates at all. -/
def itemUndated : RawItem := { id := some (.pnum 3), subject := some (.pstr "C") }

/-- Both dates explicit with finish two months before start. -/
def itemNegSpan : RawItem :=
  { id := some (.pnum 1)
    subject := some (.pstr "N")
    startDate := some (.pstr "2024-03-01")
    dueDate := some (.pstr "2024-01-01") }

/-- `percentageDone` of 150, as an out-of-range upstream value. -/
def itemPct150 : RawItem :=
  { id := some (.pnum 1)
    subject := some (.pstr "P")
    percentageDone := some (.pnum 150) }

/-- `percentageDone` delivered as the string `"50"`: `"50" / 100.0` is a
`TypeError` in Python. -/
def itemPctStr : RawItem :=
  { id := some (.pnum 1)
    subject := some (.pstr "Q")
    percentageDone := some (.pstr "50") }

/-- An unparseable start date and no status object at all. -/
def itemBadDate : RawItem :=
  { id := some (.pnum 4)
    subject := some (.pstr "D")
    startDate := some (.pstr "garbage") }

/-- An item whose type title is the integer `7`: under `epic_only` the
`Type` column is all-numeric, so the `.str` accessor of line 109 raises
`AttributeError`. -/
def itemIntType : RawItem :=
  { id := some (.pnum 1)
    links := some (.pobj [("type", .pobj [("title", .pnum 7)])]) }

def dummyTask : Task :=
  { id := .pnull
    label := ""
    start := none
    finish := none
    status := .pnull
    progress := 0
    assignee := .pnull
    wtype := .pnull
    color := ""
    duration := 0
    missingStart := true }

/-- Projection of a successful extraction (dummy on error), used to name the
concrete normalized task of an item inside closed statements. -/
def taskOrDummy : Except PyErr Task → Task
  | .ok t => t
  | .error _ => dummyTask

def dummyRow : TRow := ⟨dummyTask, 0, 0⟩

/-- The single row of the scenario chart. -/
def rowA : TRow := (rowsOf (generate_gantt_chart 0 [itemA] false)).headD dummyRow

instance : IsTotal (Nat × Task) idxLe := ⟨by intro a b; unfold idxLe; omega⟩

instance : IsTrans (Nat × Task) idxLe :=
  ⟨by intro a b c hab hbc; unfold idxLe at *; omega⟩

/-- The ids of the normalized tasks in the sorted display order of line 116
(the full DataFrame order, scheduled and unscheduled alike; the chart lists
unscheduled rows as annotations in this same order). -/
def sortedIds (now : Int) (items : List RawItem) : List PyVal :=
  match _extract_work_package_data now items with
  | .ok df => (sortTasks df).map Task.id
  | .error _ => []

/-- A `_links` member (`status`/`assignee`/`type`) the `.get` chain
tolerates: absent, or a dict. -/
def benignMember : Option PyVal → Bool
  | none => true
  | some (.pobj _) => true
  | _ => false

/-- The status member additionally needs a hashable (non-dict) title, since
the title is hashed by the set-membership test of line 22. -/
def benignStatusMember : Option PyVal → Bool
  | none => true
  | some (.pobj fs) =>
    match fs.lookup "title" with
    | some (.pobj _) => false
    | _ => true
  | _ => false

/-- The type member's title must additionally be a string (or absent, which
defaults to the string `'Task'`): under `epic_only` the whole `Type` column
feeds the `.str` accessor of line 109, whose dtype validation raises for
non-string-bearing columns. -/
def benignTypeMember : Option PyVal → Bool
  | none => true
  | some (.pobj fs) =>
    match fs.lookup "title" with
    | none => true
    | some (.pstr _) => true
    | _ => false
  | _ => false

def benignLinks : Option PyVal → Bool
  | none => true
  | some (.pobj fs) => benignStatusMember (fs.lookup "status") &&
      (benignMember (fs.lookup "assignee") && benignTypeMember (fs.lookup "type"))
  | _ => false

def benignSubject : Option PyVal → Bool
  | none => true
  | some (.pstr _) => true
  | _ => false

def benignPct : Option PyVal → Bool
  | none => true
  | some .pnull => true
  | some (.pnum _) => true
  | _ => false

/-- Items malformed only in ways the whole generator tolerates: arbitrary
junk in every date field and in `id`; absent/null/numeric `percentageDone`;
string-or-absent `subject`; dict-or-absent `_links` whose `status`,
`assignee` and `type` members are dict-or-absent, the status title being
hashable and the type title a string or absent. -/
def benignItem (wp : RawItem) : Bool :=
  benignSubject wp.subject &&
    (benignPct wp.percentageDone && benignLinks wp.links)

/-- A word of 60 `a`s. -/
def aWord : String := String.mk (List.replicate 60 'a')

/-- A word of 60 `b`s. -/
def bWord : String := String.mk (List.replicate 60 'b')

/-- A 121-character title whose two words pack exactly into the 2 default
lines with nothing left over. -/
def nameFullPack : String := aWord ++ " " ++ bWord

/-- A 250-character title with no whitespace at all. -/
def allA250 : String := String.mk (List.replicate 250 'a')

def word9 : String := "abcdefghi"

/-- A 250-character title of 25 space-separated words
(24 × 9 chars + 10 chars + 24 spaces). -/
def title250 : String :=
  String.intercalate " " (List.replicate 24 word9 ++ ["abcdefghij"])

/-- The first greedy line of `title250` at 100 chars: ten 9-char words. -/
def line250 : String := String.intercalate " " (List.replicate 10 word9)

/-! ### Helper lemmas -/

theorem except_bind_ok {α β : Type} (x : Except PyErr α)
    (f : α → Except PyErr β) (b : β) :
    (x >>= f) = .ok b ↔ ∃ a, x = .ok a ∧ f a = .ok b := by
  cases x <;> simp [Bind.bind, Except.bind]

/-- The field contract of a successful extraction: dates come from
`resolve`/`_parse_date`, duration from `durationOf`, `missing_start` is the
post-backfill `start is None`, and progress from `progressOf`. -/
theorem extractOne_fields {now : Int} {wp : RawItem} {t : Task}
    (h : extractOne now wp = .ok t) :
    t.start = (resolve (_parse_date (pick wp.startDate wp.derivedStartDate))
        (_parse_date (pick wp.dueDate wp.derivedDueDate))).1 ∧
    t.finish = (resolve (_parse_date (pick wp.startDate wp.derivedStartDate))
        (_parse_date (pick wp.dueDate wp.derivedDueDate))).2 ∧
    t.duration = durationOf t.start t.finish ∧
    t.missingStart = t.start.isNone ∧
    progressOf wp.percentageDone = .ok t.progress := by
  unfold extractOne at h
  rw [except_bind_ok] at h
  obtain ⟨wrapped, -, h⟩ := h
  rw [except_bind_ok] at h
  obtain ⟨status, -, h⟩ := h
  rw [except_bind_ok] at h
  obtain ⟨progress, hprog, h⟩ := h
  rw [except_bind_ok] at h
  obtain ⟨assignee, -, h⟩ := h
  rw [except_bind_ok] at h
  obtain ⟨wtype, -, h⟩ := h
  rw [except_bind_ok] at h
  obtain ⟨color, -, h⟩ := h
  simp only [pure, Except.pure, Except.ok.injEq] at h
  subst h
  exact ⟨rfl, rfl, rfl, rfl, hprog⟩

/-! ### C2 -/

/-- C2: date resolution is exactly the four-way case analysis of lines 64-69:
both absent ↦ both null, only start ↦ finish = start + 1 day, only finish ↦
start = finish - 1 day, both present ↦ passed through unchanged with no
defensive swap even when finish < start; and a successful extraction's
(start, finish) is precisely `resolve` of the two parsed date picks. -/
theorem C2_date_resolution :
    resolve none none = (none, none) ∧
    (∀ s : Int, resolve (some s) none = (some s, some (s + 1))) ∧
    (∀ f : Int, resolve none (some f) = (some (f - 1), some f)) ∧
    (∀ s f : Int, resolve (some s) (some f) = (some s, some f)) ∧
    (∀ s f : Int, f < s → resolve (some s) (some f) = (some s, some f)) ∧
    (∀ (now : Int) (wp : RawItem) (t : Task), extractOne now wp = .ok t →
      (t.start, t.finish) =
        resolve (_parse_date (pick wp.startDate wp.derivedStartDate))
          (_parse_date (pick wp.dueDate wp.derivedDueDate))) := by
  refine ⟨rfl, fun s => rfl, fun f => rfl, fun s f => rfl,
    fun s f _ => rfl, fun now wp t h => ?_⟩
  obtain ⟨h1, h2, -⟩ := extractOne_fields h
  rw [h1, h2]

/-- Witness for C2 at concrete inputs (including an inverted pair 5 > 3 and
the scenario item). -/
theorem C2_witness :
    ((3 : Int) < 5 ∧ resolve (some 5) (some 3) = (some 5, some 3)) ∧
    (extractOne 0 itemA = .ok (taskOrDummy (extractOne 0 itemA)) ∧
      ((taskOrDummy (extractOne 0 itemA)).start,
        (taskOrDummy (extractOne 0 itemA)).finish) =
        resolve (_parse_date (pick itemA.startDate itemA.derivedStartDate))
          (_parse_date (pick itemA.dueDate itemA.derivedDueDate))) :=
  ⟨⟨by norm_num, C2_date_resolution.2.2.2.2.1 5 3 (by norm_num)⟩,
   rfl, C2_date_resolution.2.2.2.2.2 0 itemA _ rfl⟩

/-! ### C9 -/

/-- C9: `_parse_date` resolves every problematic field value to null and
never raises: falsy values (absent/None/empty string) give `none`, non-string
values give `none` (the `AttributeError` from `.replace` is caught), and a
string `fromisoformat` cannot parse after the `Z` replacement gives `none`
(the `ValueError` is caught).  Totality of `_parse_date` is the never-raises
part of the contract. -/
theorem C9_parse_date_null :
    (∀ v : PyVal, v.truthy = false → _parse_date v = none) ∧
    (∀ v : PyVal, (∀ s, v ≠ .pstr s) → _parse_date v = none) ∧
    (∀ s : String, fromisoformat (pyReplaceZ s) = none →
      _parse_date (.pstr s) = none) := by
  refine ⟨fun v h => by simp [_parse_date, h], fun v h => ?_, fun s h => ?_⟩
  · rcases v with _ | q | s | fs
    · rfl
    · simp only [_parse_date]; split <;> rfl
    · exact absurd rfl (h s)
    · simp only [_parse_date]; split <;> rfl
  · simp only [_parse_date]
    split <;> simp [h]

/-- Witness for C9: a null value, a numeric value and a malformed string. -/
theorem C9_witness :
    (PyVal.pnull.truthy = false ∧ _parse_date .pnull = none) ∧
    ((∀ s, PyVal.pnum 5 ≠ .pstr s) ∧ _parse_date (.pnum 5) = none) ∧
    (fromisoformat (pyReplaceZ "not a date") = none ∧
      _parse_date (.pstr "not a date") = none) :=
  ⟨⟨rfl, C9_parse_date_null.1 _ rfl⟩,
   ⟨fun _ h => PyVal.noConfusion h,
    C9_parse_date_null.2.1 _ (fun _ h => PyVal.noConfusion h)⟩,
   rfl, C9_parse_date_null.2.2 _ rfl⟩

/-! ### C4 -/

/-- C4 counterexample: both dates explicit with finish 60 days before start
produce `durationDays = -60`, which is neither `max 0 (finish - start)` nor
nonnegative — line 86 has no clamping. -/
theorem C4_counterexample :
    (extractOne 0 itemNegSpan).toOption.map Task.duration = some (-60) ∧
    (-60 : Int) ≠ max 0 (-60) ∧ ¬ (0 : Int) ≤ -60 := ⟨rfl, by norm_num, by norm_num⟩

/-- C4 amended: `durationDays = (finish - start).days` when both dates are
known — unclamped, hence negative exactly when the source supplies
finish < start — and `0` when either date is unknown; each normalized task's
duration is computed this way. -/
theorem C4_duration_amended :
    (∀ s f : Int, durationOf (some s) (some f) = f - s) ∧
    (∀ f, durationOf none f = 0) ∧
    (∀ s : Int, durationOf (some s) none = 0) ∧
    (∀ (now : Int) (wp : RawItem) (t : Task), extractOne now wp = .ok t →
      t.duration = durationOf t.start t.finish) :=
  ⟨fun s f => rfl, fun f => by cases f <;> rfl, fun s => rfl,
   fun now wp t h => (extractOne_fields h).2.2.1⟩

/-- Witness for C4 on the inverted-span item. -/
theorem C4_witness :
    extractOne 0 itemNegSpan = .ok (taskOrDummy (extractOne 0 itemNegSpan)) ∧
    (taskOrDummy (extractOne 0 itemNegSpan)).duration =
      durationOf (taskOrDummy (extractOne 0 itemNegSpan)).start
        (taskOrDummy (extractOne 0 itemNegSpan)).finish :=
  ⟨rfl, C4_duration_amended.2.2.2 0 itemNegSpan _ rfl⟩

/-! ### C10 -/

/-- C10 counterexample: `percentageDone = 150` yields progress 1.5 ∉ [0, 1];
line 71 divides by 100 without clamping. -/
theorem C10_counterexample :
    (extractOne 0 itemPct150).toOption.map Task.progress =
      some ((150 : ℚ) / 100) ∧
    ¬ ((150 : ℚ) / 100 ≤ 1) := ⟨rfl, by norm_num⟩

/-- C10 amended: progress is `percentDone / 100` when present (and numeric),
`0` when the key is absent or null; it lies in [0, 1] exactly for source
values in [0, 100] — out-of-range values pass through unclamped. -/
theorem C10_progress_amended :
    (∀ q : ℚ, progressOf (some (.pnum q)) = .ok (q / 100)) ∧
    progressOf none = .ok 0 ∧
    progressOf (some .pnull) = .ok 0 ∧
    (∀ q r : ℚ, progressOf (some (.pnum q)) = .ok r → 0 ≤ q → q ≤ 100 →
      0 ≤ r ∧ r ≤ 1) ∧
    (∀ (now : Int) (wp : RawItem) (t : Task), extractOne now wp = .ok t →
      progressOf wp.percentageDone = .ok t.progress) := by
  refine ⟨fun q => rfl, rfl, rfl, fun q r h h0 h100 => ?_,
    fun now wp t h => (extractOne_fields h).2.2.2.2⟩
  have hr : r = q / 100 := by
    simpa [progressOf, Except.ok.injEq, eq_comm] using h
  subst hr
  exact ⟨div_nonneg h0 (by norm_num), by
    rw [div_le_one (by norm_num)]; linarith⟩

/-- Witness for C10 at `percentageDone = 50` and the 150 item. -/
theorem C10_witness :
    (progressOf (some (.pnum 50)) = .ok ((50 : ℚ) / 100) ∧ (0 : ℚ) ≤ 50 ∧
      (50 : ℚ) ≤ 100 ∧ 0 ≤ (50 : ℚ) / 100 ∧ (50 : ℚ) / 100 ≤ 1) ∧
    (extractOne 0 itemPct150 = .ok (taskOrDummy (extractOne 0 itemPct150)) ∧
      progressOf itemPct150.percentageDone =
        .ok (taskOrDummy (extractOne 0 itemPct150)).progress) := by
  refine ⟨⟨C10_progress_amended.1 50, by norm_num, by norm_num, ?_⟩,
    rfl, C10_progress_amended.2.2.2.2 0 itemPct150 _ rfl⟩
  exact C10_progress_amended.2.2.2.1 50 (50 / 100) rfl (by norm_num) (by norm_num)

/-! ### C3 -/

/-- C3 counterexample: `"cLosed"` is a case-insensitive match for `"closed"`
but is not in the literal set `{'Closed', 'closed', 'CLOSED'}` of line 21, so
with `finish < now` the colorizer returns Overdue, not Done — refuting the
claimed case-insensitive closed check. -/
theorem C3_counterexample :
    pyLower "cLosed" = "closed" ∧
    isClosedStatus (.pstr "cLosed") = false ∧
    _get_status_color (.pstr "cLosed") none (some 0) 5 = .ok overdueColor ∧
    overdueColor ≠ doneColor := ⟨rfl, rfl, rfl, by decide⟩

/-- C3 amended: the closed check is exact membership in
`{'Closed', 'closed', 'CLOSED'}` (not case-insensitive matching); it is
checked first and short-circuits every date-derived category, after which the
precedence is Future, then OnTrack, then Overdue, then Unknown; in particular
status `"Closed"` with `finish < now` is Done, not Overdue. -/
theorem C3_status_amended :
    (∀ s : String, isClosedStatus (.pstr s) =
      (s == "Closed" || s == "closed" || s == "CLOSED")) ∧
    (∀ (st : PyVal) (s f : Option Int) (n : Int), isClosedStatus st = true →
      _get_status_color st s f n = .ok doneColor) ∧
    (∀ (st : PyVal) (s f : Option Int) (n : Int), (∀ fs, st ≠ .pobj fs) →
      isClosedStatus st = false →
      _get_status_color st s f n = .ok (if futureCond s n then futureColor
        else if onTrackCond s f n then onTrackColor
        else if overdueCond f n then overdueColor
        else unknownColor)) ∧
    (∀ f n : Int, f < n →
      _get_status_color (.pstr "Closed") none (some f) n = .ok doneColor) := by
  refine ⟨fun s => rfl, fun st s f n h => ?_, fun st s f n hobj h => ?_,
    fun f n _ => ?_⟩
  · rcases st with _ | q | s0 | fs <;> simp_all [_get_status_color, isClosedStatus]
  · rcases st with _ | q | s0 | fs
    · simp [_get_status_color, h]
    · simp [_get_status_color, h]
    · simp [_get_status_color, h]
    · exact absurd rfl (hobj fs)
  · simp [_get_status_color, isClosedStatus]

/-- Witness for C3 on concrete statuses. -/
theorem C3_witness :
    (isClosedStatus (.pstr "closed") = true ∧
      _get_status_color (.pstr "closed") none none 0 = .ok doneColor) ∧
    ((∀ fs, PyVal.pstr "Open" ≠ .pobj fs) ∧
      isClosedStatus (.pstr "Open") = false ∧
      _get_status_color (.pstr "Open") none none 0 =
        .ok (if futureCond none 0 then futureColor
          else if onTrackCond none none 0 then onTrackColor
          else if overdueCond none 0 then overdueColor
          else unknownColor)) ∧
    ((0 : Int) < 5 ∧
      _get_status_color (.pstr "Closed") none (some 0) 5 = .ok doneColor) :=
  ⟨⟨rfl, C3_status_amended.2.1 _ none none 0 rfl⟩,
   ⟨fun _ h => PyVal.noConfusion h, rfl,
    C3_status_amended.2.2.1 _ none none 0 (fun _ h => PyVal.noConfusion h) rfl⟩,
   by norm_num, C3_status_amended.2.2.2 0 5 (by norm_num)⟩

/-! ### C8 -/

/-- C8: the project-relative week index of lines 125-129 is exactly
`max(1, (date - minStart).days // 7 + 1)`, and the spec's single-item
scenario (start 2024-01-01, due 2024-01-10) produces exactly one scheduled
row with `startWeek = 1` and `finishWeek = 2`. -/
theorem C8_week_formula :
    (∀ m d : Int, week m d = max 1 ((d - m).fdiv 7 + 1)) ∧
    (rowsOf (generate_gantt_chart 0 [itemA] false)).map
      (fun r => (r.startWeek, r.finishWeek)) = [(1, 2)] := by
  refine ⟨fun m d => ?_, rfl⟩
  simp only [week]
  split <;> omega

/-! ### C1 -/

theorem week_mono (m : Int) {a b : Int} (h : a ≤ b) : week m a ≤ week m b := by
  have hd : (a - m).fdiv 7 ≤ (b - m).fdiv 7 := by
    rw [Int.fdiv_eq_ediv _ (by norm_num), Int.fdiv_eq_ediv _ (by norm_num)]
    exact Int.ediv_le_ediv (by norm_num) (by omega)
  simp only [week]
  split <;> split <;> omega

/-- Every chart outcome's row list is `scheduledRows` of some `min_start` and
task list. -/
theorem chart_rows_shape {now : Int} {items : List RawItem} {eo : Bool}
    {rows : List TRow} (h : generate_gantt_chart now items eo = .chart rows) :
    ∃ m ts, rows = scheduledRows m ts := by
  unfold generate_gantt_chart at h
  dsimp only at h
  split at h
  · simp at h
  · rcases hE : _extract_work_package_data now items with e | df
    · rw [hE] at h; simp at h
    · rw [hE] at h
      dsimp only at h
      rcases hF : epicFilter df eo with e | df1
      · rw [hF] at h; simp at h
      · rw [hF] at h
        dsimp only at h
        split at h
        all_goals try split at h
        all_goals try split at h
        all_goals
          first
            | exact GanttResult.noConfusion h
            | (cases h; exact ⟨_, _, rfl⟩)

/-- C1 amended: `finishWeek > startWeek` holds for every produced row whose
task satisfies `start ≤ finish` — which is every task except those whose
explicitly provided finish precedes their start (the pass-through of line 39
of the spec); when both dates land in the same week the bump of line 132
forces strictness. -/
theorem C1_finishWeek_amended :
    ∀ (now : Int) (items : List RawItem) (eo : Bool) (rows : List TRow),
    generate_gantt_chart now items eo = .chart rows →
    ∀ r ∈ rows, ∀ s f : Int, r.task.start = some s → r.task.finish = some f →
    s ≤ f → r.startWeek < r.finishWeek := by
  intro now items eo rows h r hr s f hs hf hsf
  obtain ⟨m, ts, rfl⟩ := chart_rows_shape h
  rw [scheduledRows, List.mem_filterMap] at hr
  obtain ⟨t, -, hrow⟩ := hr
  unfold rowOf at hrow
  rcases hts : t.start with _ | s0
  · rw [hts] at hrow; simp at hrow
  · rcases htf : t.finish with _ | f0
    · rw [hts, htf] at hrow; simp at hrow
    · rw [hts, htf] at hrow
      simp only [Option.map_some', Option.some.injEq] at hrow
      subst hrow
      simp only at hs hf ⊢
      rw [hts] at hs
      rw [htf] at hf
      obtain rfl : s0 = s := by injection hs
      obtain rfl : f0 = f := by injection hf
      have hmono := week_mono m hsf
      split <;> omega

/-- C1 counterexample: two items, the second with its explicit finish
(2024-01-05) weeks before its explicit start (2024-03-01).  Its row gets
`startWeek = 9`, `finishWeek = 1`: the bump of line 132 only fires on
equality, so `finishWeek > startWeek` fails. -/
theorem C1_counterexample :
    (rowsOf (generate_gantt_chart 0 [itemX, itemY] false)).map
      (fun r => (r.startWeek, r.finishWeek)) = [(1, 2), (9, 1)] ∧
    (rowsOf (generate_gantt_chart 0 [itemX, itemY] false)).any
      (fun r => decide (r.finishWeek ≤ r.startWeek)) = true := ⟨rfl, rfl⟩

/-- Witness for C1 on the scenario item (start ≤ finish, weeks 1 < 2). -/
theorem C1_witness :
    generate_gantt_chart 0 [itemA] false =
      .chart (rowsOf (generate_gantt_chart 0 [itemA] false)) ∧
    rowA ∈ rowsOf (generate_gantt_chart 0 [itemA] false) ∧
    rowA.task.start = some 19723 ∧ rowA.task.finish = some 19732 ∧
    (19723 : Int) ≤ 19732 ∧ rowA.startWeek < rowA.finishWeek := by
  have hmem : rowA ∈ rowsOf (generate_gantt_chart 0 [itemA] false) := by
    have hlist : rowsOf (generate_gantt_chart 0 [itemA] false) = [rowA] := rfl
    rw [hlist]
    exact List.mem_singleton.mpr rfl
  exact ⟨rfl, hmem, rfl, rfl, by norm_num,
    C1_finishWeek_amended 0 [itemA] false _ rfl rowA hmem 19723 19732 rfl rfl
      (by norm_num)⟩

/-! ### C7 -/

theorem sortTagged_sorted (l : List Task) : (sortTagged l).Pairwise idxLe :=
  List.sorted_insertionSort idxLe l.enum

theorem sortTagged_perm (l : List Task) : (sortTagged l).Perm l.enum :=
  List.perm_insertionSort idxLe l.enum

theorem sortTagged_fst_nodup (l : List Task) :
    ((sortTagged l).map Prod.fst).Nodup :=
  ((sortTagged_perm l).map Prod.fst).nodup_iff.mpr (List.nodup_enum_map_fst l)

theorem taskRank_le_one (t : Task) : taskRank t ≤ 1 := by
  unfold taskRank; split <;> omega

theorem taskRank_eq_one_iff (t : Task) : taskRank t = 1 ↔ t.missingStart = true := by
  unfold taskRank; split <;> simp_all

/-- Stability of the modelled sort: two tasks with the same
(MissingStart, Start) key keep their original relative position. -/
theorem sortTagged_stable (l : List Task) :
    (sortTagged l).Pairwise (fun a b => a.2.missingStart = b.2.missingStart →
      a.2.start = b.2.start → a.1 < b.1) := by
  have h1 := sortTagged_sorted l
  have h2 : (sortTagged l).Pairwise (fun a b => a.1 ≠ b.1) := by
    have h := sortTagged_fst_nodup l
    rwa [List.Nodup, List.pairwise_map] at h
  refine (List.pairwise_and_iff.mpr ⟨h1, h2⟩).imp ?_
  rintro a b ⟨hle, hne⟩ hm hs
  have hrank : taskRank a.2 = taskRank b.2 := by unfold taskRank; rw [hm]
  have hsr : startRank a.2 = startRank b.2 := by unfold startRank; rw [hs]
  have hsv : startVal a.2 = startVal b.2 := by unfold startVal; rw [hs]
  unfold idxLe at hle
  omega

/-- The key ordering projected to the untagged sorted output. -/
theorem sortTasks_pairwise (l : List Task) :
    (sortTasks l).Pairwise (fun a b =>
      (a.missingStart = true → b.missingStart = true) ∧
      (∀ x y : Int, a.start = some x → b.start = some y →
        a.missingStart = b.missingStart → x ≤ y)) := by
  rw [sortTasks, List.pairwise_map]
  refine (sortTagged_sorted l).imp ?_
  intro a b hab
  constructor
  · intro hm
    have hb := taskRank_le_one b.2
    have ha1 : taskRank a.2 = 1 := (taskRank_eq_one_iff a.2).mpr hm
    have : taskRank b.2 = 1 := by unfold idxLe at hab; omega
    exact (taskRank_eq_one_iff b.2).mp this
  · intro x y hx hy hm
    have htr : taskRank a.2 = taskRank b.2 := by unfold taskRank; rw [hm]
    have hsa : startRank a.2 = 0 := by unfold startRank; rw [hx]; rfl
    have hsb : startRank b.2 = 0 := by unfold startRank; rw [hy]; rfl
    have hva : startVal a.2 = x := by unfold startVal; rw [hx]; rfl
    have hvb : startVal b.2 = y := by unfold startVal; rw [hy]; rfl
    unfold idxLe at hab
    omega

/-- C7 counterexample: item 3 has no explicit start (only a due date), yet
after the backfill of lines 68-69 its `missing_start` flag (line 75, computed
post-backfill) is `false`, so it sorts by its inferred start 2024-01-01 and
lands *between* the two explicitly dated tasks: rows come out [1, 3, 2], not
[A, B, C] = [1, 2, 3]. -/
theorem C7_counterexample :
    itemDueOnly.startDate = none ∧ itemDueOnly.derivedStartDate = none ∧
    (extractOne 0 itemDueOnly).toOption.map Task.missingStart = some false ∧
    (rowsOf (generate_gantt_chart 0 [itemEarly, itemLate, itemDueOnly]
        false)).map (fun r => r.task.id) = [.pnum 1, .pnum 3, .pnum 2] :=
  ⟨rfl, rfl, rfl, rfl⟩

/-- C7 amended: line 116 sorts stably by (MissingStart, Start), but
`missing_start` is computed after the due-date backfill, so it flags only
tasks with *no resolvable date at all*; those sort last.  All dated tasks —
explicitly started or backfilled from a due date — are in ascending resolved
start order, ties keeping input order (np.lexsort is stable).  The [A, B, C]
invariance under input permutation holds when C is fully undated; a C with
only a due date is instead placed among the dated tasks by its inferred
start. -/
theorem C7_sort_amended :
    (∀ l : List Task, (sortTasks l).Pairwise
      (fun a b => a.missingStart = true → b.missingStart = true)) ∧
    (∀ l : List Task, (sortTasks l).Pairwise
      (fun a b => ∀ x y : Int, a.start = some x → b.start = some y →
        a.missingStart = b.missingStart → x ≤ y)) ∧
    (∀ l : List Task, (sortTagged l).Pairwise
      (fun a b => a.2.missingStart = b.2.missingStart →
        a.2.start = b.2.start → a.1 < b.1)) ∧
    (sortedIds 0 [itemEarly, itemLate, itemUndated] =
        [.pnum 1, .pnum 2, .pnum 3] ∧
      sortedIds 0 [itemEarly, itemUndated, itemLate] =
        [.pnum 1, .pnum 2, .pnum 3] ∧
      sortedIds 0 [itemLate, itemEarly, itemUndated] =
        [.pnum 1, .pnum 2, .pnum 3] ∧
      sortedIds 0 [itemLate, itemUndated, itemEarly] =
        [.pnum 1, .pnum 2, .pnum 3] ∧
      sortedIds 0 [itemUndated, itemEarly, itemLate] =
        [.pnum 1, .pnum 2, .pnum 3] ∧
      sortedIds 0 [itemUndated, itemLate, itemEarly] =
        [.pnum 1, .pnum 2, .pnum 3]) := by
  refine ⟨fun l => ?_, fun l => ?_, sortTagged_stable,
    rfl, rfl, rfl, rfl, rfl, rfl⟩
  · exact (sortTasks_pairwise l).imp (fun h => h.1)
  · exact (sortTasks_pairwise l).imp (fun h => h.2)

/-! ### C5 -/

theorem wrapSubject_benign (os : Option PyVal) (h : benignSubject os = true) :
    ∃ w, wrapSubject os = .ok w := by
  rcases os with _ | v
  · exact ⟨wrap_name "Untitled", rfl⟩
  · rcases v with _ | q | s | fs
    · simp [benignSubject] at h
    · simp [benignSubject] at h
    · exact ⟨wrap_name s, rfl⟩
    · simp [benignSubject] at h

theorem progressOf_benign (pd : Option PyVal) (h : benignPct pd = true) :
    ∃ q, progressOf pd = .ok q := by
  rcases pd with _ | v
  · exact ⟨0, rfl⟩
  · rcases v with _ | q | s | fs
    · exact ⟨0, rfl⟩
    · exact ⟨q / 100, rfl⟩
    · simp [benignPct] at h
    · simp [benignPct] at h

theorem titleOf_obj (fs : List (String × PyVal)) (mem dflt : String) :
    titleOf (some (.pobj fs)) mem dflt =
      pyGetD ((fs.lookup mem).getD (.pobj [])) "title" (.pstr dflt) := rfl

theorem titleOf_status_benign (links : Option PyVal) (dflt : String)
    (h : benignLinks links = true) :
    ∃ v, titleOf links "status" dflt = .ok v ∧ ∀ fs2, v ≠ .pobj fs2 := by
  rcases links with _ | v
  · exact ⟨.pstr dflt, rfl, fun _ hv => PyVal.noConfusion hv⟩
  · rcases v with _ | q | s | fs
    · simp [benignLinks] at h
    · simp [benignLinks] at h
    · simp [benignLinks] at h
    · rw [titleOf_obj]
      have hst : benignStatusMember (fs.lookup "status") = true := by
        simp only [benignLinks, Bool.and_eq_true] at h
        exact h.1
      rcases hl : fs.lookup "status" with _ | w
      · exact ⟨.pstr dflt, rfl, fun _ hv => PyVal.noConfusion hv⟩
      · rw [hl] at hst
        rcases w with _ | q | s | fs2
        · simp [benignStatusMember] at hst
        · simp [benignStatusMember] at hst
        · simp [benignStatusMember] at hst
        · rcases ht : fs2.lookup "title" with _ | u
          · refine ⟨.pstr dflt, ?_, fun _ hv => PyVal.noConfusion hv⟩
            simp [pyGetD, ht]
          · have hu : ∀ g, u ≠ .pobj g := by
              rcases u with _ | _ | _ | g
              · exact fun _ hv => PyVal.noConfusion hv
              · exact fun _ hv => PyVal.noConfusion hv
              · exact fun _ hv => PyVal.noConfusion hv
              · simp [benignStatusMember, ht] at hst
            refine ⟨u, ?_, hu⟩
            simp [pyGetD, ht]

theorem titleOf_member_benign (links : Option PyVal) (dflt : String)
    (h : benignLinks links = true) :
    ∃ v, titleOf links "assignee" dflt = .ok v := by
  rcases links with _ | v
  · exact ⟨.pstr dflt, rfl⟩
  · rcases v with _ | q | s | fs
    · simp [benignLinks] at h
    · simp [benignLinks] at h
    · simp [benignLinks] at h
    · have hmem : benignMember (fs.lookup "assignee") = true := by
        simp only [benignLinks, Bool.and_eq_true] at h
        exact h.2.1
      rw [titleOf_obj]
      rcases hl : fs.lookup "assignee" with _ | w
      · exact ⟨.pstr dflt, rfl⟩
      · rw [hl] at hmem
        rcases w with _ | q | s | fs2
        · simp [benignMember] at hmem
        · simp [benignMember] at hmem
        · simp [benignMember] at hmem
        · rcases ht : fs2.lookup "title" with _ | u
          · exact ⟨.pstr dflt, by simp [pyGetD, ht]⟩
          · exact ⟨u, by simp [pyGetD, ht]⟩

/-- For a benign item the resolved type title is always a string (present
string title, or the `'Task'` default). -/
theorem titleOf_type_benign (links : Option PyVal) (dflt : String)
    (h : benignLinks links = true) :
    ∃ s, titleOf links "type" dflt = .ok (.pstr s) := by
  rcases links with _ | v
  · exact ⟨dflt, rfl⟩
  · rcases v with _ | q | s | fs
    · simp [benignLinks] at h
    · simp [benignLinks] at h
    · simp [benignLinks] at h
    · have hty : benignTypeMember (fs.lookup "type") = true := by
        simp only [benignLinks, Bool.and_eq_true] at h
        exact h.2.2
      rw [titleOf_obj]
      rcases hl : fs.lookup "type" with _ | w
      · exact ⟨dflt, rfl⟩
      · rw [hl] at hty
        rcases w with _ | q | s | fs2
        · simp [benignTypeMember] at hty
        · simp [benignTypeMember] at hty
        · simp [benignTypeMember] at hty
        · rcases ht : fs2.lookup "title" with _ | u
          · exact ⟨dflt, by simp [pyGetD, ht]⟩
          · rcases u with _ | q | s | g
            · simp [benignTypeMember, ht] at hty
            · simp [benignTypeMember, ht] at hty
            · exact ⟨s, by simp [pyGetD, ht]⟩
            · simp [benignTypeMember, ht] at hty

theorem color_ok (v : PyVal) (hv : ∀ fs, v ≠ .pobj fs)
    (s f : Option Int) (n : Int) :
    ∃ c, _get_status_color v s f n = .ok c := by
  rcases v with _ | q | s0 | fs
  · exact ⟨_, rfl⟩
  · exact ⟨_, rfl⟩
  · exact ⟨_, rfl⟩
  · exact absurd rfl (hv fs)

theorem extractOne_ok (now : Int) (wp : RawItem) (h : benignItem wp = true) :
    ∃ t, extractOne now wp = .ok t := by
  have hsub : benignSubject wp.subject = true := by
    simp only [benignItem, Bool.and_eq_true] at h
    exact h.1
  have hpct : benignPct wp.percentageDone = true := by
    simp only [benignItem, Bool.and_eq_true] at h
    exact h.2.1
  have hlinks : benignLinks wp.links = true := by
    simp only [benignItem, Bool.and_eq_true] at h
    exact h.2.2
  obtain ⟨w, hw⟩ := wrapSubject_benign wp.subject hsub
  obtain ⟨st, hst, hstno⟩ := titleOf_status_benign wp.links "Unknown" hlinks
  obtain ⟨pr, hpr⟩ := progressOf_benign wp.percentageDone hpct
  obtain ⟨asg, hasg⟩ := titleOf_member_benign wp.links "Unassigned" hlinks
  obtain ⟨tys, hty⟩ := titleOf_type_benign wp.links "Task" hlinks
  obtain ⟨c, hc⟩ := color_ok st hstno
    (resolve (_parse_date (pick wp.startDate wp.derivedStartDate))
      (_parse_date (pick wp.dueDate wp.derivedDueDate))).1
    (resolve (_parse_date (pick wp.startDate wp.derivedStartDate))
      (_parse_date (pick wp.dueDate wp.derivedDueDate))).2 now
  rcases hE : extractOne now wp with e | t
  · exfalso
    unfold extractOne at hE
    rw [hw] at hE
    dsimp only [Bind.bind, Except.bind] at hE
    rw [hst] at hE
    dsimp only at hE
    rw [hpr] at hE
    dsimp only at hE
    rw [hasg] at hE
    dsimp only at hE
    rw [hty] at hE
    dsimp only at hE
    rw [hc] at hE
    simp [pure, Except.pure] at hE
  · exact ⟨t, rfl⟩

/-- The type-title field contract of a successful extraction. -/
theorem extractOne_wtype {now : Int} {wp : RawItem} {t : Task}
    (h : extractOne now wp = .ok t) :
    titleOf wp.links "type" "Task" = .ok t.wtype := by
  unfold extractOne at h
  rw [except_bind_ok] at h
  obtain ⟨wrapped, -, h⟩ := h
  rw [except_bind_ok] at h
  obtain ⟨status, -, h⟩ := h
  rw [except_bind_ok] at h
  obtain ⟨progress, -, h⟩ := h
  rw [except_bind_ok] at h
  obtain ⟨assignee, -, h⟩ := h
  rw [except_bind_ok] at h
  obtain ⟨wtype, hty, h⟩ := h
  rw [except_bind_ok] at h
  obtain ⟨color, -, h⟩ := h
  simp only [pure, Except.pure, Except.ok.injEq] at h
  subst h
  exact hty

theorem mapM_extract_ok {now : Int} : ∀ (items : List RawItem),
    (∀ wp ∈ items, benignItem wp = true) →
    ∃ ts, items.mapM (extractOne now) = .ok ts ∧
      ∀ t ∈ ts, ∃ s, t.wtype = .pstr s
  | [], _ => ⟨[], rfl, by simp⟩
  | a :: l, h => by
    obtain ⟨t, ht⟩ := extractOne_ok now a (h a (List.mem_cons_self a l))
    obtain ⟨ts, hts, hstr⟩ :=
      mapM_extract_ok l (fun wp hwp => h wp (List.mem_cons_of_mem a hwp))
    have hla : benignLinks a.links = true := by
      have hba := h a (List.mem_cons_self a l)
      simp only [benignItem, Bool.and_eq_true] at hba
      exact hba.2.2
    have hwt : ∃ s, t.wtype = .pstr s := by
      obtain ⟨s, hty⟩ := titleOf_type_benign a.links "Task" hla
      have hw := extractOne_wtype ht
      rw [hty] at hw
      exact ⟨s, by injection hw with hw2; exact hw2.symm⟩
    refine ⟨t :: ts, ?_, ?_⟩
    · rw [List.mapM_cons, ht, hts]
      rfl
    · intro x hx
      rcases List.mem_cons.mp hx with rfl | hx
      · exact hwt
      · exact hstr x hx

/-- A column of strings always passes the `.str` accessor validation. -/
theorem strAccessorOk_of_strings (types : List PyVal)
    (h : ∀ v ∈ types, ∃ s, v = .pstr s) : strAccessorOk types = true := by
  unfold strAccessorOk
  by_cases he : (types.filter notNull).isEmpty
  · rw [if_pos he]
  · rw [if_neg he, if_pos ?_]
    rw [List.all_eq_true]
    intro v hv
    obtain ⟨s, rfl⟩ := h v (List.mem_of_mem_filter hv)
    rfl

/-- C5 counterexample, two ways the claim fails.  (1) An item whose
`percentageDone` is the string `"50"`: line 71 evaluates `"50" / 100.0`, a
`TypeError`, which escapes `_extract_work_package_data` and is only caught
by the catch-all at line 243 — the whole request degrades to the error
alert, no timeline is produced.  (2) An item whose type title is the integer
`7`, under `epic_only`: the `Type` column carries no strings, so the `.str`
accessor of line 109 raises `AttributeError`, again aborting the whole
chart. -/
theorem C5_counterexample :
    (itemPctStr.percentageDone = some (.pstr "50") ∧
      generate_gantt_chart 0 [itemPctStr] false = .failure .typeError) ∧
    (itemIntType.links = some (.pobj [("type", .pobj [("title", .pnum 7)])]) ∧
      generate_gantt_chart 0 [itemIntType] true = .failure .attributeError) :=
  ⟨⟨rfl, rfl⟩, rfl, rfl⟩

/-- C5 amended: extraction tolerates (and degrades) malformed dates, missing
or absent status objects and missing fields — bad dates become null (the
unscheduled bucket) and a missing status object becomes `'Unknown'` with the
Unknown color — and for a list of such items the generator never reaches the
error branch, whether or not the epic filter runs (benign type titles keep
the `Type` column string-only, so line 109's `.str` accessor validates); but
an item with a present non-numeric `percentageDone` (or a non-string
subject, a non-dict `_links`/member, or — under `epic_only` — a stringless
`Type` column) raises inside the `try` block and aborts the whole timeline
into the error alert. -/
theorem C5_error_handling_amended :
    (∀ (now : Int) (items : List RawItem) (eo : Bool) (e : PyErr),
      (∀ wp ∈ items, benignItem wp = true) →
      generate_gantt_chart now items eo ≠ .failure e) ∧
    (∀ (now : Int) (wp : RawItem), benignItem wp = true →
      ∃ t, extractOne now wp = .ok t) ∧
    ((extractOne 0 itemBadDate).toOption.map
        (fun t => (t.start, t.finish, t.missingStart, t.status, t.color)) =
      some (none, none, true, .pstr "Unknown", unknownColor)) := by
  refine ⟨fun now items eo e hb hgen => ?_, extractOne_ok, rfl⟩
  obtain ⟨ts, hts, hstr⟩ := mapM_extract_ok items hb
  have hts2 : _extract_work_package_data now items = .ok ts := hts
  have hef : ∃ df1, epicFilter ts eo = .ok df1 := by
    unfold epicFilter
    cases eo with
    | false => exact ⟨ts, rfl⟩
    | true =>
      have hs : strAccessorOk (ts.map Task.wtype) = true := by
        apply strAccessorOk_of_strings
        intro v hv
        rw [List.mem_map] at hv
        obtain ⟨t, ht, rfl⟩ := hv
        exact hstr t ht
      rw [if_pos rfl, if_pos hs]
      exact ⟨ts.filter isEpic, rfl⟩
  obtain ⟨df1, hdf1⟩ := hef
  unfold generate_gantt_chart at hgen
  split at hgen
  · exact GanttResult.noConfusion hgen
  · rw [hts2] at hgen
    dsimp only at hgen
    rw [hdf1] at hgen
    dsimp only at hgen
    split at hgen
    all_goals try split at hgen
    all_goals try split at hgen
    all_goals exact GanttResult.noConfusion hgen

/-- Witness for C5: the bad-date item is benign, extraction succeeds on it
and the generator does not reach the error branch. -/
theorem C5_witness :
    (∀ wp ∈ [itemBadDate], benignItem wp = true) ∧
    generate_gantt_chart 0 [itemBadDate] false ≠ .failure .typeError ∧
    benignItem itemBadDate = true ∧
    ∃ t, extractOne 0 itemBadDate = .ok t := by
  have hb : ∀ wp ∈ [itemBadDate], benignItem wp = true := by
    intro wp hwp
    rw [List.mem_singleton] at hwp
    rw [hwp]
    rfl
  exact ⟨hb, C5_error_handling_amended.1 0 [itemBadDate] false .typeError hb,
    rfl, C5_error_handling_amended.2.1 0 itemBadDate rfl⟩

/-! ### C6 -/

theorem sumLens_nil : sumLens [] = 0 := rfl

theorem sumLens_cons (w : String) (l : List String) :
    sumLens (w :: l) = w.length + sumLens l := by simp [sumLens]

theorem sumLens_concat (l : List String) (w : String) :
    sumLens (l ++ [w]) = sumLens l + w.length := by simp [sumLens]

/-- `str.split()` accounting: the split words plus one separator per word
never exceed the string length plus one. -/
theorem pySplitAux_budget : ∀ (cs acc : List Char),
    sumLens (pySplitAux cs acc) + (pySplitAux cs acc).length ≤
      cs.length + acc.length + 1 := by
  intro cs
  induction cs with
  | nil =>
    intro acc
    by_cases hacc : acc.isEmpty
    · simp [pySplitAux, hacc, sumLens_nil]
    · simp only [pySplitAux]
      rw [if_neg hacc]
      have hmk : (String.mk acc.reverse).length = acc.length := by
        show acc.reverse.length = acc.length
        exact List.length_reverse acc
      have hs : sumLens [String.mk acc.reverse] =
          (String.mk acc.reverse).length := by simp [sumLens]
      simp only [List.length_singleton, List.length_nil]
      omega
  | cons c cs ih =>
    intro acc
    simp only [pySplitAux]
    by_cases hws : c.isWhitespace
    · rw [if_pos hws]
      by_cases hacc : acc.isEmpty
      · rw [if_pos hacc]
        have := ih []
        simp only [List.length_nil, List.length_cons] at *
        omega
      · rw [if_neg hacc]
        have := ih []
        rw [sumLens_cons]
        simp only [List.length_nil, List.length_cons] at *
        have hmk : (String.mk acc.reverse).length = acc.length := by
          show acc.reverse.length = acc.length
          exact List.length_reverse acc
        omega
    · rw [if_neg hws]
      have := ih (c :: acc)
      simp only [List.length_cons] at *
      omega

theorem mk_reverse_len (acc : List Char) (h : ¬ acc.isEmpty = true) :
    1 ≤ (String.mk acc.reverse).length := by
  have hacc : acc ≠ [] := by simpa [List.isEmpty_iff] using h
  have hmk : (String.mk acc.reverse).length = acc.length := by
    show acc.reverse.length = acc.length
    exact List.length_reverse acc
  have := List.length_pos.mpr hacc
  omega

/-- Every word `str.split()` produces is nonempty. -/
theorem pySplitAux_words_len : ∀ (cs acc : List Char),
    ∀ w ∈ pySplitAux cs acc, 1 ≤ w.length := by
  intro cs
  induction cs with
  | nil =>
    intro acc w hw
    by_cases hacc : acc.isEmpty
    · simp [pySplitAux, hacc] at hw
    · simp only [pySplitAux] at hw
      rw [if_neg hacc, List.mem_singleton] at hw
      subst hw
      exact mk_reverse_len acc hacc
  | cons c cs ih =>
    intro acc w hw
    simp only [pySplitAux] at hw
    by_cases hws : c.isWhitespace
    · rw [if_pos hws] at hw
      by_cases hacc : acc.isEmpty
      · rw [if_pos hacc] at hw
        exact ih [] w hw
      · rw [if_neg hacc, List.mem_cons] at hw
        rcases hw with hw | hw
        · subst hw
          exact mk_reverse_len acc hacc
        · exact ih [] w hw
    · rw [if_neg hws] at hw
      exact ih (c :: acc) w hw

/-- Loop accounting: characters in packed lines plus the current line never
exceed the consumed words' characters plus one join per word. -/
theorem wrapLoop_budget (mc ml : Nat) : ∀ (ws lines : List String) (cur : String),
    sumLens (wrapLoop mc ml ws lines cur).1 +
      (wrapLoop mc ml ws lines cur).2.1.length +
      sumLens (wrapLoop mc ml ws lines cur).2.2 +
      (wrapLoop mc ml ws lines cur).2.2.length ≤
    sumLens lines + cur.length + sumLens ws + ws.length := by
  intro ws
  induction ws with
  | nil =>
    intro lines cur
    simp [wrapLoop, sumLens_nil]
  | cons w ws ih =>
    intro lines cur
    simp only [wrapLoop]
    split
    · have h1 := ih lines (if cur = "" then w else cur ++ " " ++ w)
      have hcur : (if cur = "" then w else cur ++ " " ++ w).length ≤
          cur.length + w.length + 1 := by
        split
        · omega
        · rw [String.length_append, String.length_append]
          have : (" " : String).length = 1 := rfl
          omega
      rw [sumLens_cons]
      simp only [List.length_cons]
      omega
    · split
    -- the break branch returns (lines ++ [cur], w, ws)
      · simp only
        rw [sumLens_concat, sumLens_cons]
        simp only [List.length_cons]
        omega
      · have h1 := ih (lines ++ [cur]) w
        rw [sumLens_concat] at h1
        rw [sumLens_cons]
        simp only [List.length_cons]
        omega

/-- When the loop's `break` fired (words remained), the packed lines number
exactly `max_lines - 1` (with `max_lines ≥ 2`), the final current line is one
of the words, and every leftover word is one of the words. -/
theorem wrapLoop_break (mc ml : Nat) : ∀ (ws lines : List String) (cur : String),
    (wrapLoop mc ml ws lines cur).2.2 ≠ [] →
    (wrapLoop mc ml ws lines cur).1.length = ml - 1 ∧ 2 ≤ ml ∧
    (wrapLoop mc ml ws lines cur).2.1 ∈ ws ∧
    ∀ x ∈ (wrapLoop mc ml ws lines cur).2.2, x ∈ ws := by
  intro ws
  induction ws with
  | nil =>
    intro lines cur h
    exact absurd rfl h
  | cons w ws ih =>
    intro lines cur h
    simp only [wrapLoop] at h ⊢
    by_cases hfit : cur.length + w.length + 1 ≤ mc
    · rw [if_pos hfit] at h ⊢
      obtain ⟨ha, hb, hc, hd⟩ := ih lines _ h
      exact ⟨ha, hb, List.mem_cons_of_mem w hc, fun x hx =>
        List.mem_cons_of_mem w (hd x hx)⟩
    · rw [if_neg hfit] at h ⊢
      by_cases hbrk : (lines ++ [cur]).length = ml - 1
      · rw [if_pos hbrk] at h ⊢
        refine ⟨hbrk, ?_, List.mem_cons_self w ws, fun x hx =>
          List.mem_cons_of_mem w hx⟩
        have h1 : 1 ≤ (lines ++ [cur]).length := by simp
        omega
      · rw [if_neg hbrk] at h ⊢
        obtain ⟨ha, hb, hc, hd⟩ := ih (lines ++ [cur]) w h
        exact ⟨ha, hb, List.mem_cons_of_mem w hc, fun x hx =>
          List.mem_cons_of_mem w (hd x hx)⟩

theorem sumLens_ge_len : ∀ l : List String, (∀ w ∈ l, 1 ≤ w.length) →
    l.length ≤ sumLens l := by
  intro l
  induction l with
  | nil => intro _; simp [sumLens_nil]
  | cons w l ih =>
    intro h
    rw [sumLens_cons]
    have h1 := h w (List.mem_cons_self w l)
    have h2 := ih (fun x hx => h x (List.mem_cons_of_mem w hx))
    simp only [List.length_cons]
    omega

theorem str_ne_empty {s : String} (h : 1 ≤ s.length) : s ≠ "" := by
  intro hc
  subst hc
  simp at h

set_option maxRecDepth 40000 in
/-- C6 counterexample: the 121-character two-word title packs fully into the
2 default lines (no word remained: `wrapTruncated` is false), yet the output
carries the ellipsis marker — the heuristic of line 56 does not count the
whitespace between lines.  And the spaceless 250-character title wraps to an
empty first line plus an over-long second line with no ellipsis at all. -/
theorem C6_counterexample :
    wrapTruncated nameFullPack 100 2 = false ∧
    wrap_name nameFullPack 100 2 = aWord ++ "<br>" ++ bWord ++ "..." ∧
    wrap_name allA250 100 2 = "<br>" ++ allA250 :=
  ⟨rfl, rfl, rfl⟩

set_option maxRecDepth 40000 in
/-- C6 amended: whenever words remained unpacked the ellipsis marker is
appended (truncation implies ellipsis), and the 250-character multi-word
scenario yields exactly 2 lines joined by the break marker ending with the
marker; but the converse fails — the ellipsis is governed by the character
heuristic of line 56, which can fire without truncation (see the
counterexample). -/
theorem C6_label_amended :
    (∀ (name : String) (mc ml : Nat), wrapTruncated name mc ml = true →
      ∃ r, wrap_name name mc ml = r ++ "...") ∧
    (wrapTruncated title250 100 2 = true ∧
      wrap_name title250 100 2 = line250 ++ "<br>" ++ word9 ++ "..." ∧
      title250.length = 250) := by
  refine ⟨fun name mc ml h => ?_, rfl, rfl, rfl⟩
  unfold wrapTruncated at h
  by_cases hlen : name.length ≤ mc
  · rw [if_pos hlen] at h
    exact absurd h (by simp)
  · rw [if_neg hlen] at h
    rcases hT : wrapLoop mc ml (pySplit name) [] "" with ⟨lines0, cur, rest⟩
    rw [hT] at h
    simp only [Bool.not_eq_true'] at h
    have hrest : rest ≠ [] := by
      intro hc
      subst hc
      simp at h
    have hbreak := wrapLoop_break mc ml (pySplit name) [] ""
    rw [hT] at hbreak
    dsimp only at hbreak
    obtain ⟨hlines, hml, hcur, hsub⟩ := hbreak hrest
    have hwords : ∀ w ∈ pySplit name, 1 ≤ w.length :=
      fun w hw => pySplitAux_words_len name.toList [] w hw
    have hcur1 : 1 ≤ cur.length := hwords cur hcur
    have hbudget := wrapLoop_budget mc ml (pySplit name) [] ""
    rw [hT] at hbudget
    dsimp only at hbudget
    have hz1 : sumLens ([] : List String) = 0 := rfl
    have hz2 : ("" : String).length = 0 := rfl
    rw [hz1, hz2] at hbudget
    have hWbudget : sumLens (pySplit name) + (pySplit name).length ≤
        name.length + 0 + 1 := pySplitAux_budget name.toList []
    have hrest_len : 1 ≤ rest.length := List.length_pos.mpr hrest
    have hrest_sum : rest.length ≤ sumLens rest :=
      sumLens_ge_len rest (fun x hx => hwords x (hsub x hx))
    have hpacked : sumLens lines0 + cur.length + 1 ≤ name.length := by omega
    unfold wrap_name
    rw [if_neg hlen, hT]
    dsimp only
    rw [if_neg (str_ne_empty hcur1)]
    have hlen1 : (lines0 ++ [cur]).length = ml := by
      simp only [List.length_append, List.length_singleton]
      omega
    rw [if_neg (by omega : ¬ (lines0 ++ [cur]).length > ml)]
    rw [if_pos (show (lines0 ++ [cur]).length = ml ∧
        cur.length + sumLens (lines0 ++ [cur]).dropLast < name.length by
      refine ⟨hlen1, ?_⟩
      rw [List.dropLast_concat]
      omega)]
    exact ⟨String.intercalate "<br>" (lines0 ++ [cur]), rfl⟩

set_option maxRecDepth 40000 in
/-- Witness for C6 on the 250-character scenario title. -/
theorem C6_witness :
    wrapTruncated title250 100 2 = true ∧
    ∃ r, wrap_name title250 100 2 = r ++ "..." :=
  ⟨rfl, C6_label_amended.1 title250 100 2 rfl⟩

end OPGantt
